import Mathlib

/-!
# Verification of the basketStatTrends stat-derivation and trend-analysis core

Shallow embedding of the repository's core logic:
* `src/data.js` — CSV cell parsing (`cleanCsvValue`, `parseStatValue`,
  `extractPlayerInfo`), played predicate (`hasValidStats`), CSV ingestion
  (`parseCsv`), derived-stat computation (`computeAstToRatio`,
  `computeAttackEnergy`, `computeDefenceDomination`, `computeShootingStar`,
  `addComputedStats`);
* `src/app.js` — windowed trend analysis (`calculateWindowedStats`), the
  insight engine (`analyzePlayerPerformance`, `generateRecommendation`);
* `src/reference-stats.js` — benchmark table and `getPerformanceLevel`.

JavaScript numbers are modelled as rationals (`ℚ`); `Math.round` is modelled
as round-half-towards-plus-infinity (`⌊q + 1/2⌋`), which agrees with the
JavaScript semantics on the rational model.  Records (JS objects) are
modelled as ordered association lists with a JS-style property-set operation
(`jsSet`) that updates the first matching key in place or appends.  The JS
string primitives used by the source (`trim`, `split`, `toLowerCase`,
`endsWith`, …) are modelled by structurally recursive functions over
character lists.
-/

namespace BasketStat

/-- A parsed stat value, the tagged union stored under each stat key.
`absent` models JS `null`/`undefined`, `count` a JS number, `madeAttempted`
the `{ made, attempted }` object, `rawText` a string passthrough. -/
inductive StatValue where
  | absent
  | count (value : ℚ)
  | madeAttempted (made attempted : ℚ)
  | rawText (text : String)
deriving DecidableEq, Repr

/-- A performance record: a JS object mapping stat keys to values,
modelled as an ordered association list. -/
abbrev PRecord := List (String × StatValue)

/-! ## JS string primitives, modelled over character lists -/

/-- Drop leading and trailing whitespace, the model of JS `s.trim()`. -/
def trimChars (cs : List Char) : List Char :=
  ((cs.dropWhile Char.isWhitespace).reverse.dropWhile Char.isWhitespace).reverse

/-- Model of JS `s.trim()`. -/
def jsTrim (s : String) : String := String.mk (trimChars s.toList)

/-- Split on a separator character; the model of JS `s.split(sep)` for
single-character separators (`","` and `"-"` in the source).  The recursive
call always returns a nonempty list (there is always a current group), so
prepending the character to the head group via `headD`/`tail` matches the
usual match-on-head formulation. -/
def splitChar (sep : Char) : List Char → List (List Char)
  | [] => [[]]
  | c :: rest =>
    if c = sep then [] :: splitChar sep rest
    else (c :: (splitChar sep rest).headD []) :: (splitChar sep rest).tail

/-- Rejoin groups with the separator; inverse of `splitChar`. -/
def joinSep (sep : Char) : List (List Char) → List Char
  | [] => []
  | [g] => g
  | g :: gs => g ++ sep :: joinSep sep gs

/-- Model of JS `s.split(sep)` for a single-character separator. -/
def jsSplit (sep : Char) (s : String) : List String :=
  (splitChar sep s.toList).map String.mk

/-- Model of JS `s.toLowerCase()` on the ASCII range (the stat keys and the
`"player"` header that the source lowercases are ASCII). -/
def asciiLower (c : Char) : Char :=
  if 65 ≤ c.toNat ∧ c.toNat ≤ 90 then Char.ofNat (c.toNat + 32) else c

/-- Model of JS `s.toLowerCase()`. -/
def jsToLower (s : String) : String := String.mk (s.toList.map asciiLower)

/-- Model of JS `s.endsWith(c)` for a one-character suffix. -/
def jsEndsWith (c : Char) (s : String) : Bool := s.toList.getLast? = some c

/-- Model of JS `s.startsWith(c)` for a one-character prefix. -/
def jsStartsWith (c : Char) (s : String) : Bool := s.toList.head? = some c

/-- Model of JS `array.join(", ")`. -/
def joinCommaSpace : List String → String
  | [] => ""
  | [s] => s
  | s :: rest => s ++ ", " ++ joinCommaSpace rest

/-! ## JS number parsing (model of `Number(...)` and `parseInt(..., 10)`) -/

/-- Value of a list of decimal digit characters. -/
def digitsToNat (cs : List Char) : ℕ :=
  cs.foldl (fun a c => 10 * a + (c.toNat - 48)) 0

/-- Exponent suffix of a JS decimal numeral: `e`/`E`, optional sign, digits. -/
def parseSignedExp (mant : ℚ) (cs : List Char) : Option ℚ :=
  let (sign, ds) : ℤ × List Char :=
    match cs with
    | '+' :: r => (1, r)
    | '-' :: r => (-1, r)
    | r => (1, r)
  let ds₁ := ds.takeWhile Char.isDigit
  if ds₁.isEmpty ∨ ¬(ds.dropWhile Char.isDigit).isEmpty then none
  else some (mant * (10 : ℚ) ^ (sign * (digitsToNat ds₁ : ℤ)))

/-- Optional exponent part after the mantissa of a JS decimal numeral. -/
def parseExpPart (mant : ℚ) (cs : List Char) : Option ℚ :=
  match cs with
  | [] => some mant
  | 'e' :: rest => parseSignedExp mant rest
  | 'E' :: rest => parseSignedExp mant rest
  | _ => none

/-- Unsigned JS decimal numeral: digits, optional `.digits`, optional
exponent (also accepts `.digits` with no integer part, and `digits.`). -/
def parseDecCore (cs : List Char) : Option ℚ :=
  let intPart := cs.takeWhile Char.isDigit
  let rest := cs.dropWhile Char.isDigit
  match rest with
  | '.' :: rest₂ =>
      let frac := rest₂.takeWhile Char.isDigit
      let rest₃ := rest₂.dropWhile Char.isDigit
      if intPart.isEmpty ∧ frac.isEmpty then none
      else
        parseExpPart
          ((digitsToNat intPart : ℚ) + (digitsToNat frac : ℚ) / (10 : ℚ) ^ frac.length)
          rest₃
  | _ =>
      if intPart.isEmpty then none
      else parseExpPart (digitsToNat intPart : ℚ) rest

/-- Model of JS `Number(s)` restricted to the rational model: trims
whitespace, `""` is `0`, signed decimal numerals with optional fraction and
exponent.  Non-finite (`Infinity`) and radix-prefixed (`0x…`) literals are
outside the rational model and are treated as unparseable. -/
def jsNumber? (s : String) : Option ℚ :=
  let t := trimChars s.toList
  if t.isEmpty then some 0
  else
    match t with
    | '+' :: rest => parseDecCore rest
    | '-' :: rest => (parseDecCore rest).map Neg.neg
    | cs => parseDecCore cs

/-- Model of JS `parseInt(s, 10)`: skip leading whitespace, optional sign,
then the longest digit prefix; `none` models `NaN` (no leading digits).
Trailing garbage is ignored. -/
def jsParseInt? (s : String) : Option ℤ :=
  let cs := s.toList.dropWhile Char.isWhitespace
  let (sign, rest) : ℤ × List Char :=
    match cs with
    | '+' :: r => (1, r)
    | '-' :: r => (-1, r)
    | r => (1, r)
  let ds := rest.takeWhile Char.isDigit
  if ds.isEmpty then none else some (sign * (digitsToNat ds : ℤ))

/-! ## Cell cleaning and stat-value parsing (`src/data.js`) -/

/-- Does `s.replace(/^q(.*)q$/, '$1')` fire?  The JS `.` does not match line
terminators, so both ends must be `q` (length ≥ 2) and the middle must be
free of `\n`/`\r`. -/
def quotedBy (q : Char) (cs : List Char) : Bool :=
  match cs with
  | [] => false
  | c :: rest =>
      c = q ∧ rest ≠ [] ∧ rest.getLast? = some q ∧
        rest.dropLast.all (fun ch => ch ≠ '\n' ∧ ch ≠ '\r')

/-- Strip one surrounding pair of quote characters `q`, as the JS regex
replace `^q(.*)q$ → $1` does. -/
def stripQuote (q : Char) (s : String) : String :=
  let cs := s.toList
  if quotedBy q cs then String.mk (cs.drop 1).dropLast else s

/-- `cleanCsvValue` (src/data.js:341-346): trim, strip surrounding double
quotes, strip surrounding single quotes, trim again. -/
def cleanCsvValue (value : String) : String :=
  let c₁ := jsTrim value
  let c₂ := stripQuote '"' c₁
  let c₃ := stripQuote (Char.ofNat 39) c₂
  jsTrim c₃

/-- The regex test `/^\d+-\d+$/`: splitting on `-` yields exactly two
nonempty all-digit parts. -/
def isMadeAttemptedShape (cs : List Char) : Bool :=
  match splitChar '-' cs with
  | [a, b] => a ≠ [] ∧ b ≠ [] ∧ a.all Char.isDigit ∧ b.all Char.isDigit
  | _ => false

/-- Remove the first occurrence of a character, modelling
`s.replace("%", "")` (JS string-pattern replace is first-occurrence only). -/
def removeFirstChar (c : Char) : List Char → List Char
  | [] => []
  | x :: rest => if x = c then rest else x :: removeFirstChar c rest

/-- `parseStatValue` (src/data.js:364-383).  In the made-attempted branch,
`trimmed.split("-").map(Number)` is the decimal value of each of the two
all-digit groups. -/
def parseStatValue (value : String) : StatValue :=
  let trimmed := cleanCsvValue value
  if trimmed = "-" ∨ trimmed = "" then .absent
  else if isMadeAttemptedShape trimmed.toList then
    let parts := splitChar '-' trimmed.toList
    .madeAttempted (digitsToNat (parts.getD 0 []) : ℕ) (digitsToNat (parts.getD 1 []) : ℕ)
  else if jsEndsWith '%' trimmed then
    match jsParseInt? (String.mk (removeFirstChar '%' trimmed.toList)) with
    | none => .absent
    | some n => .count n
  else
    match jsNumber? trimmed with
    | some q => .count q
    | none => .rawText trimmed

/-! ## Records as JS objects -/

/-- JS property read `obj[key]`: the first entry with the key, else
`undefined` (modelled by `absent`). -/
def getStat (r : PRecord) (key : String) : StatValue :=
  match r.find? (fun p => p.1 = key) with
  | some p => p.2
  | none => .absent

/-- JS property write `obj[key] = val`: update the first entry with the key
in place, else append (object key order). -/
def jsSet {α : Type} (key : String) (val : α) : List (String × α) → List (String × α)
  | [] => [(key, val)]
  | (k, v) :: rest => if k = key then (k, val) :: rest else (k, v) :: jsSet key val rest

/-- JS truthiness of `value > 0` under number coercion: numbers compare
directly, strings are coerced by `Number`, objects and `null` coerce to
`NaN` and compare false. -/
def statGtZero : StatValue → Bool
  | .count q => decide (0 < q)
  | .rawText s => match jsNumber? s with | some q => decide (0 < q) | none => false
  | _ => false

/-- The counting-stat keys checked by `hasValidStats`. -/
def otherStatKeys : List String := ["oreb", "dreb", "asst", "stl", "blk", "foul", "to"]

/-- `hasValidStats` (src/data.js:389-435), the played predicate.  The
source's single loop sets four monotone flags; each flag is expressed here
as an existential scan over the entries (equivalent, since the flags only
ever go from `false` to `true`).  `value === null` entries are skipped. -/
def hasValidStats (stats : PRecord) : Bool :=
  let hasMinutes := stats.any fun p =>
    !(p.2 == StatValue.absent) && jsToLower p.1 == "min" && statGtZero p.2
  let hasPoints := stats.any fun p =>
    !(p.2 == StatValue.absent) && jsToLower p.1 == "pts" && statGtZero p.2
  let hasFgAttempts := stats.any fun p =>
    !(p.2 == StatValue.absent) && jsToLower p.1 == "fg" &&
      (match p.2 with | .madeAttempted _ a => decide (0 < a) | _ => false)
  let hasOtherStats := stats.any fun p =>
    !(p.2 == StatValue.absent) &&
      ((otherStatKeys.contains (jsToLower p.1) &&
          (match p.2 with | .count q => decide (0 < q) | _ => false)) ||
       (jsToLower p.1 == "+/-" &&
          (match p.2 with | .count q => decide (q ≠ 0) | _ => false)))
  hasMinutes || hasPoints || hasFgAttempts || hasOtherStats

/-! ## Derived composite metrics (`src/data.js:663-805`) -/

/-- JS `Math.round`: round half towards `+∞`. -/
def jsRound (q : ℚ) : ℚ := ⌊q + 1 / 2⌋

/-- `Math.round(q * 100) / 100`: round to two decimal places. -/
def round2 (q : ℚ) : ℚ := jsRound (q * 100) / 100

/-- `Math.round(q * 10) / 10`: round to one decimal place. -/
def round1 (q : ℚ) : ℚ := jsRound (q * 10) / 10

/-- `typeof v === 'number' ? v : 0`, the default used throughout the
derived-stat computations. -/
def numOr0 : StatValue → ℚ
  | .count q => q
  | _ => 0

/-- `computeAstToRatio` (src/data.js:663-679). -/
def computeAstToRatio (stats : PRecord) : StatValue :=
  let assists := numOr0 (getStat stats "asst")
  let turnovers := numOr0 (getStat stats "to")
  if assists = 0 ∧ turnovers = 0 then .absent
  else if turnovers = 0 then .count (round2 assists)
  else .count (round2 (assists / turnovers))

/-- `attempted` component of a `{made, attempted}` value (`x.attempted || 0`
guarded by the `typeof === 'object'` check); anything else contributes 0. -/
def attemptedOr0 : StatValue → ℚ
  | .madeAttempted _ a => a
  | _ => 0

/-- `computeAttackEnergy` (src/data.js:687-716). -/
def computeAttackEnergy (stats : PRecord) : StatValue :=
  let minutes := numOr0 (getStat stats "min")
  if minutes ≤ 0 then .absent
  else
    let fga := attemptedOr0 (getStat stats "fg")
    let fta := attemptedOr0 (getStat stats "ft")
    let assists := numOr0 (getStat stats "asst")
    let oreb := numOr0 (getStat stats "oreb")
    let rawTotal := fga + fta + assists + oreb
    if rawTotal = 0 then .absent
    else .count (round2 (rawTotal / minutes))

/-- `getFoulMultiplier` (src/data.js:722-727). -/
def getFoulMultiplier (fouls : ℚ) : ℚ :=
  if fouls = 3 then 5 / 4
  else if fouls = 2 then 1
  else if fouls = 4 then 17 / 20
  else 7 / 10

/-- `computeDefenceDomination` (src/data.js:734-755). -/
def computeDefenceDomination (stats : PRecord) : StatValue :=
  let minutes := numOr0 (getStat stats "min")
  if minutes ≤ 0 then .absent
  else
    let blocks := numOr0 (getStat stats "blk")
    let steals := numOr0 (getStat stats "stl")
    let dreb := numOr0 (getStat stats "dreb")
    let fouls := numOr0 (getStat stats "foul")
    let rawDefence := blocks + steals + dreb
    if rawDefence = 0 then .absent
    else .count (round2 (rawDefence * getFoulMultiplier fouls / minutes))

/-- `computeShootingStar` (src/data.js:762-790): collect whichever of
`fg%`, `3pt%`, `ft%` are numbers `> 0`, in that order. -/
def computeShootingStar (stats : PRecord) : StatValue :=
  let percentages :=
    (["fg%", "3pt%", "ft%"].map (getStat stats)).filterMap fun v =>
      match v with
      | .count q => if 0 < q then some q else none
      | _ => none
  if percentages.isEmpty then .absent
  else .count (round1 (percentages.sum / percentages.length))

/-- `addComputedStats` (src/data.js:797-805): spread the record, then set
the four computed keys in source order; all four are computed from the
original record. -/
def addComputedStats (stats : PRecord) : PRecord :=
  jsSet "shoot" (computeShootingStar stats)
    (jsSet "def" (computeDefenceDomination stats)
      (jsSet "atk" (computeAttackEnergy stats)
        (jsSet "a/to" (computeAstToRatio stats) stats)))

/-! ## Player identity and CSV ingestion (`src/data.js:352-479`) -/

/-- The identity extracted from a player cell. -/
structure PlayerIdentity where
  number : Option ℕ
  name : String
deriving DecidableEq, Repr

/-- `extractPlayerInfo` (src/data.js:352-359): match the cleaned cell
against `^#(\d+)\s+(.+)$`; on failure `number` is `null` and the name is the
cleaned cell verbatim.  The JS `.` in `(.+)` does not match line
terminators. -/
def extractPlayerInfo (playerString : String) : PlayerIdentity :=
  let trimmed := cleanCsvValue playerString
  match trimmed.toList with
  | '#' :: rest =>
      let ds := rest.takeWhile Char.isDigit
      let afterDs := rest.dropWhile Char.isDigit
      let ws := afterDs.takeWhile Char.isWhitespace
      let nameCs := afterDs.dropWhile Char.isWhitespace
      if ds ≠ [] ∧ ws ≠ [] ∧ nameCs ≠ [] ∧
          nameCs.all (fun ch => ch ≠ '\n' ∧ ch ≠ '\r') then
        ⟨some (digitsToNat ds), jsTrim (String.mk nameCs)⟩
      else ⟨none, trimmed⟩
  | _ => ⟨none, trimmed⟩

/-- A player-registry entry `{ number, active }`. -/
structure PlayerRegEntry where
  number : Option ℕ
  active : Bool
deriving DecidableEq, Repr

/-- The successful result of `parseCsv`. -/
structure CsvGame where
  statHeaders : List String
  performances : List (String × PRecord)
  playersFound : List (String × PlayerRegEntry)
deriving DecidableEq, Repr

/-- The stats object built for one surviving row: for each stat header, the
cell at `headers.indexOf(header)` parsed by `parseStatValue` (`indexOf`
finds the first occurrence, and repeated assignments to the same key
overwrite, which `jsSet` models). -/
def buildRowStats (headers statHeaders columns : List String) : PRecord :=
  statHeaders.foldl
    (fun acc header =>
      jsSet header
        (parseStatValue (columns.getD (headers.findIdx (· = header)) "")) acc)
    []

/-- One `forEach` step of `parseCsv`: extract the identity, build the stats,
and keep the row only when it passes the played predicate. -/
def parseCsvStep (headers statHeaders : List String) (playerIndex : ℕ)
    (acc : List (String × PlayerRegEntry) × List (String × PRecord))
    (columns : List String) :
    List (String × PlayerRegEntry) × List (String × PRecord) :=
  let info := extractPlayerInfo (columns.getD playerIndex "")
  let stats := buildRowStats headers statHeaders columns
  if hasValidStats stats then
    (jsSet info.name ⟨info.number, true⟩ acc.1, jsSet info.name stats acc.2)
  else acc

/-- `parseCsv` (src/data.js:440-479) after the line split: clean and split
the header, find the `player` column (else fail with the header list in the
message), drop rows with the wrong cell count or whose player cell does not
start with `#`, and keep rows passing the played predicate. -/
def parseCsvLines (headerLine : String) (rows : List String) :
    Except String CsvGame :=
  let headers := (jsSplit ',' headerLine).map cleanCsvValue
  match headers.findIdx? (fun h => jsToLower h = "player") with
  | none =>
      .error ("CSV must include a 'player' column. Found: " ++ joinCommaSpace headers)
  | some playerIndex =>
      let statHeaders :=
        (headers.zipWith (fun h i => (h, i)) (List.range headers.length)).filterMap
          (fun p => if p.2 ≠ playerIndex then some p.1 else none)
      let processed := rows.map (fun row => (jsSplit ',' row).map cleanCsvValue)
      let lenOk := processed.filter (fun r => r.length = headers.length)
      let withHash := lenOk.filter (fun columns => jsStartsWith '#' (columns.getD playerIndex ""))
      let out := withHash.foldl (parseCsvStep headers statHeaders playerIndex) ([], [])
      .ok ⟨statHeaders, out.2, out.1⟩

/-- `parseCsv` from the raw file text: `text.trim().split(/\r?\n/)`, then
the header/rows processing of `parseCsvLines`. -/
def parseCsv (text : String) : Except String CsvGame :=
  let lines :=
    (jsSplit '\n' (jsTrim text)).map
      (fun l => if jsEndsWith '\r' l then String.mk l.toList.dropLast else l)
  parseCsvLines (lines.headD "") lines.tail

/-! ## Benchmark table and classification (`src/reference-stats.js`) -/

/-- One benchmark entry.  The descriptive fields (`name`, `unit`,
`description`, `isMadeAttempted`) are not consulted by any of the verified
functions and are omitted; a missing `invertedScale` is falsy, i.e.
`false`. -/
structure BenchmarkStat where
  p25 : ℚ
  p50 : ℚ
  p75 : ℚ
  p90 : ℚ
  invertedScale : Bool
deriving DecidableEq, Repr

/-- The benchmark table `referenceStats.stats` (src/reference-stats.js,
values verbatim). -/
def referenceStatsTable : List (String × BenchmarkStat) :=
  [ ("pts",  ⟨4, 8, 14, 20, false⟩),
    ("fg",   ⟨1, 3, 5, 8, false⟩),
    ("fg%",  ⟨30, 38, 45, 52, false⟩),
    ("3pt",  ⟨0, 1, 2, 3, false⟩),
    ("3pt%", ⟨20, 28, 35, 42, false⟩),
    ("ft",   ⟨0, 1, 3, 5, false⟩),
    ("ft%",  ⟨50, 62, 72, 82, false⟩),
    ("oreb", ⟨0, 1, 2, 4, false⟩),
    ("dreb", ⟨1, 2, 4, 6, false⟩),
    ("reb",  ⟨2, 4, 6, 9, false⟩),
    ("asst", ⟨0, 1, 3, 5, false⟩),
    ("stl",  ⟨0, 1, 2, 4, false⟩),
    ("blk",  ⟨0, 0, 1, 2, false⟩),
    ("to",   ⟨4, 3, 2, 1, true⟩),
    ("foul", ⟨4, 3, 2, 1, true⟩),
    ("a/to", ⟨1/2, 1, 3/2, 5/2, false⟩) ]

/-- `referenceStats.stats[statKey.toLowerCase()]` (also the body of
`getStatReference`, src/reference-stats.js:274-276). -/
def lookupBenchmark (statKey : String) : Option BenchmarkStat :=
  (referenceStatsTable.find? (fun p => p.1 = jsToLower statKey)).map Prod.snd

/-- A qualitative performance tier. -/
inductive PerfLevel where
  | poor | below | average | good | excellent
deriving DecidableEq, Repr

/-- The threshold cascade of `getPerformanceLevel` for a known benchmark
entry and a non-`NaN` numeric value. -/
def classifyValue (b : BenchmarkStat) (numValue : ℚ) : PerfLevel :=
  if b.invertedScale then
    if numValue ≤ b.p90 then .excellent
    else if numValue ≤ b.p75 then .good
    else if numValue ≤ b.p50 then .average
    else if numValue ≤ b.p25 then .below
    else .poor
  else
    if b.p90 ≤ numValue then .excellent
    else if b.p75 ≤ numValue then .good
    else if b.p50 ≤ numValue then .average
    else if b.p25 ≤ numValue then .below
    else .poor

/-- `Number(value)` with `NaN` as `none`, for the dynamic `value` argument
of `getPerformanceLevel`. -/
def jsToNumber? : StatValue → Option ℚ
  | .absent => none
  | .count q => some q
  | .madeAttempted _ _ => none
  | .rawText s => jsNumber? s

/-- `getPerformanceLevel` (src/reference-stats.js:224-249): unknown stat
key, `null` value, or `NaN` coercion default to `average`; a
made-attempted object is classified by its `made` component. -/
def getPerformanceLevel (statKey : String) (value : StatValue) : PerfLevel :=
  match lookupBenchmark statKey with
  | none => .average
  | some stat =>
      match value with
      | .absent => .average
      | .madeAttempted m _ => classifyValue stat m
      | v =>
          match jsToNumber? v with
          | none => .average
          | some numValue => classifyValue stat numValue

/-! ## Windowed trend analysis (`src/app.js:95-157`) -/

/-- `hasValidStatValue` (src/app.js:311-321): `null` is invalid, a
made-attempted object needs at least one attempt, anything else counts. -/
def hasValidStatValue : StatValue → Bool
  | .absent => false
  | .madeAttempted _ a => decide (0 < a)
  | _ => true

/-- `getNumericStat` (src/app.js:26-32): `null` is 0, made-attempted yields
`made`, numbers pass through, anything else is `Number(value) || 0`. -/
def getNumericStat : StatValue → ℚ
  | .absent => 0
  | .madeAttempted m _ => m
  | .count q => q
  | .rawText s => match jsNumber? s with | some q => q | none => 0

/-- `values.slice(-windowSize)`, the current window. -/
def jsCurrentWindow (windowSize : ℕ) (values : List ℚ) : List ℚ :=
  if windowSize = 0 then values else values.drop (values.length - windowSize)

/-- `values.slice(-windowSize * 2, -windowSize)`, the previous window. -/
def jsPrevWindow (windowSize : ℕ) (values : List ℚ) : List ℚ :=
  (values.take (values.length - windowSize)).drop (values.length - 2 * windowSize)

/-- Arithmetic mean `reduce((a,b) => a+b, 0) / length`. -/
def listMean (l : List ℚ) : ℚ := l.sum / l.length

/-- The standard even/odd median rule applied to an already-sorted list
(src/app.js:116-118): even length averages the two middle elements, odd
length takes the middle element. -/
def evenOddMedianRule (s : List ℚ) : ℚ :=
  if s.length % 2 = 0 then
    (s.getD (s.length / 2 - 1) 0 + s.getD (s.length / 2) 0) / 2
  else s.getD (s.length / 2) 0

/-- `[...w].sort((a,b) => a-b)` followed by the even/odd median rule. -/
def medianOf (l : List ℚ) : ℚ :=
  evenOddMedianRule (l.insertionSort (· ≤ ·))

/-- Claim-side description of "the last `w` values" of a series. -/
def specLastN (w : ℕ) (l : List ℚ) : List ℚ := (l.reverse.take w).reverse

/-- `Math.max(...l)` for a nonempty list. -/
def listMax : List ℚ → ℚ
  | [] => 0
  | x :: xs => xs.foldl max x

/-- `Math.min(...l)` for a nonempty list. -/
def listMin : List ℚ → ℚ
  | [] => 0
  | x :: xs => xs.foldl min x

/-- The structure returned by `calculateWindowedStats`. -/
structure WindowStats where
  gamesInWindow : ℕ
  totalGames : ℕ
  average : ℚ
  avgTrend : ℚ
  median : ℚ
  medianTrend : ℚ
  max : ℚ
  min : ℚ
  varianceTrend : ℚ
  hasPrevWindow : Bool
deriving DecidableEq, Repr

/-- The body of `calculateWindowedStats` from the point where the numeric
series has been extracted (src/app.js:100-156). -/
def windowedStatsCore (values : List ℚ) (windowSize : ℕ) : Option WindowStats :=
  if values.isEmpty then none
  else
    let currentWindow := jsCurrentWindow windowSize values
    let prevWindow := jsPrevWindow windowSize values
    if currentWindow.isEmpty then none
    else
      let currentAvg := listMean currentWindow
      let currentMedian := medianOf currentWindow
      let currentMax := listMax currentWindow
      let currentMin := listMin currentWindow
      let prevAvg : Option ℚ :=
        if 3 ≤ prevWindow.length then some (listMean prevWindow) else none
      let prevMedian : Option ℚ :=
        if 3 ≤ prevWindow.length then some (medianOf prevWindow) else none
      let prevMax : Option ℚ :=
        if 3 ≤ prevWindow.length then some (listMax prevWindow) else none
      let prevMin : Option ℚ :=
        if 3 ≤ prevWindow.length then some (listMin prevWindow) else none
      let avgTrend := match prevAvg with | some p => currentAvg - p | none => 0
      let medianTrend := match prevMedian with | some p => currentMedian - p | none => 0
      let varianceTrend :=
        match prevMax, prevMin with
        | some pmax, some pmin => (currentMax - currentMin) - (pmax - pmin)
        | _, _ => 0
      some
        { gamesInWindow := currentWindow.length
          totalGames := values.length
          average := currentAvg
          avgTrend := avgTrend
          median := currentMedian
          medianTrend := medianTrend
          max := currentMax
          min := currentMin
          varianceTrend := varianceTrend
          hasPrevWindow := decide (3 ≤ prevWindow.length) }

/-- The numeric series of a stat over the records that have a valid value
for it (src/app.js:97-98). -/
def validValues (records : List PRecord) (stat : String) : List ℚ :=
  (records.filter (fun r => hasValidStatValue (getStat r stat))).map
    (fun r => getNumericStat (getStat r stat))

/-- `calculateWindowedStats` (src/app.js:95-157); a record here is the
`stats` object of one game row. -/
def calculateWindowedStats (records : List PRecord) (stat : String)
    (windowSize : ℕ) : Option WindowStats :=
  windowedStatsCore (validValues records stat) windowSize

/-! ## Insight engine (`src/app.js:522-645, 755-791`) -/

/-- A trend direction. -/
inductive TrendDir where
  | improving | declining | consistent
deriving DecidableEq, Repr

/-- The per-stat numbers produced inside `analyzePlayerPerformance`. -/
structure StatTrend where
  recentAvg : ℚ
  prevAvg : ℚ
  trendValue : ℚ
  trendDirection : TrendDir
  perfLevel : PerfLevel
deriving DecidableEq, Repr

/-- `refStat?.invertedScale || false` (src/app.js:557-558). -/
def isInvertedStat (stat : String) : Bool :=
  match lookupBenchmark stat with
  | some b => b.invertedScale
  | none => false

/-- The per-stat body of the `stats.forEach` loop in
`analyzePlayerPerformance` (src/app.js:540-569): `none` when the stat has
fewer than 2 valid values or the recent window is empty.  Note the
previous-window average falls back to the season average when the previous
window is empty, and is otherwise the mean of however many values (1 or
more) the previous window holds. -/
def statTrendAnalysis (records : List PRecord) (stat : String)
    (windowSize : ℕ) : Option StatTrend :=
  let validRecords := records.filter (fun r => hasValidStatValue (getStat r stat))
  if validRecords.length < 2 then none
  else
    let values := validRecords.map (fun r => getNumericStat (getStat r stat))
    let recentValues := jsCurrentWindow windowSize values
    let previousValues := jsPrevWindow windowSize values
    if recentValues.isEmpty then none
    else
      let recentAvg := listMean recentValues
      let seasonAvg := listMean values
      let prevAvg := if 0 < previousValues.length then listMean previousValues else seasonAvg
      let isInverted := isInvertedStat stat
      let perfLevel := getPerformanceLevel stat (.count recentAvg)
      let trendValue := recentAvg - prevAvg
      let trendDirection : TrendDir :=
        if isInverted then
          if trendValue < -(1/5) then .improving
          else if 1/5 < trendValue then .declining
          else .consistent
        else
          if 1/5 < trendValue then .improving
          else if trendValue < -(1/5) then .declining
          else .consistent
      some ⟨recentAvg, prevAvg, trendValue, trendDirection, perfLevel⟩

/-- An entry of one of the analysis lists; `generateRecommendation` only
consults the `stat` field and the list lengths, so the other display-only
fields are omitted. -/
structure StatEntry where
  stat : String
deriving DecidableEq, Repr

/-- The analysis aggregate consumed by `generateRecommendation`. -/
structure Analysis where
  strengths : List StatEntry
  weaknesses : List StatEntry
  improving : List StatEntry
  declining : List StatEntry
  hotStreaks : List StatEntry
  coldStreaks : List StatEntry
deriving DecidableEq, Repr

/-- `getStatDisplayName` (src/app.js:731-751). -/
def getStatDisplayName (stat : String) : String :=
  let names : List (String × String) :=
    [ ("pts", "Points"), ("fg", "Field Goals"), ("fg%", "FG%"),
      ("3pt", "3-Pointers"), ("3pt%", "3PT%"), ("ft", "Free Throws"),
      ("ft%", "FT%"), ("oreb", "Off. Rebounds"), ("dreb", "Def. Rebounds"),
      ("reb", "Rebounds"), ("asst", "Assists"), ("stl", "Steals"),
      ("blk", "Blocks"), ("to", "Turnovers"), ("foul", "Fouls"),
      ("a/to", "Assist/TO Ratio") ]
  match names.find? (fun p => p.1 = jsToLower stat) with
  | some p => p.2
  | none => stat

/-- `generateRecommendation` (src/app.js:755-791): a chain of early
returns; `none` models returning `null`. -/
def generateRecommendation (analysis : Analysis) : Option String :=
  if analysis.coldStreaks.any (fun c => c.stat = "fg%" ∨ c.stat = "3pt%") then
    some "Shooting is cold. Focus on high-percentage shots closer to the basket."
  else if analysis.declining.any (fun d => d.stat = "to") ||
      analysis.weaknesses.any (fun w => w.stat = "to") then
    some "Work on ball security. Look for safer passing lanes and avoid forcing plays."
  else if analysis.declining.any (fun d => d.stat = "a/to") then
    some "Assist-to-turnover ratio declining. Focus on smart decision-making with the ball."
  else if analysis.weaknesses.any (fun w => w.stat = "ft%") then
    some "Free throw practice can add easy points. Aim for 10+ FTs daily."
  else if analysis.weaknesses.any (fun w => w.stat = "dreb") then
    some "Box out on defensive rebounds. Position yourself between opponent and basket."
  else if 2 ≤ analysis.improving.length ∧ analysis.declining.length = 0 then
    some "Great progress! Maintain this momentum and keep pushing."
  else if 2 ≤ analysis.hotStreaks.length then
    some "Playing with confidence! Stay aggressive and trust your game."
  else if 0 < analysis.strengths.length ∧ 0 < analysis.weaknesses.length then
    some ("Build on your " ++
      getStatDisplayName ((analysis.strengths.headD ⟨""⟩).stat) ++
      " strength while developing weaker areas.")
  else none

/-! ## Claim-side specification functions -/

/-- A fully valid (strict) integer numeral: optional sign followed by one or
more digits and nothing else. -/
def strictInt? (cs : List Char) : Option ℤ :=
  match cs with
  | '-' :: ds =>
      if ds ≠ [] ∧ ds.all Char.isDigit then some (-(digitsToNat ds : ℤ)) else none
  | '+' :: ds =>
      if ds ≠ [] ∧ ds.all Char.isDigit then some (digitsToNat ds : ℤ) else none
  | ds =>
      if ds ≠ [] ∧ ds.all Char.isDigit then some (digitsToNat ds : ℤ) else none

/-- Claim C1's percent rule read literally (spec 4.1 step 4): strip the
trailing `%` and parse the remainder as an integer; a remainder that is not
a valid integer yields `Absent`. -/
def specPercentRule (t : String) : StatValue :=
  match strictInt? t.toList.dropLast with
  | some n => .count n
  | none => .absent

/-- First-match selection over an ordered rule list: the claim's "fixed
priority order, only the first matching rule fires". -/
def firstMatch : List (Bool × String) → Option String
  | [] => none
  | (c, m) :: rest => if c then some m else firstMatch rest

/-- A `StatValue` the cell parser can produce: `rawText` only ever holds
strings that do not coerce to a number (otherwise `parseStatValue` would
have returned `count`).  Claims about "parsed records" quantify over
records whose values satisfy this. -/
def parserReachable : StatValue → Prop
  | .rawText s => jsNumber? s = none
  | _ => True

/-- Claim C8's trend rule read literally: current- and previous-window
means computed via the windowing rules of spec 4.6 — the previous-window
mean is absent unless the previous window has at least 3 elements, the
trend then defaulting to 0 — with thresholds of ±0.2 and the comparison
sign flipped for inverted stats. -/
def specTrendDirection (records : List PRecord) (stat : String)
    (windowSize : ℕ) : TrendDir :=
  let values := validValues records stat
  let recent := specLastN windowSize values
  let prev := specLastN windowSize (values.take (values.length - windowSize))
  let trendValue : ℚ :=
    if 3 ≤ prev.length then listMean recent - listMean prev else 0
  if isInvertedStat stat then
    if trendValue < -(1/5) then .improving
    else if 1/5 < trendValue then .declining
    else .consistent
  else
    if 1/5 < trendValue then .improving
    else if trendValue < -(1/5) then .declining
    else .consistent

/-! ## Helper lemmas -/

theorem splitChar_nil (sep : Char) : splitChar sep [] = [[]] := rfl

theorem splitChar_cons (sep c : Char) (rest : List Char) :
    splitChar sep (c :: rest) =
      if c = sep then [] :: splitChar sep rest
      else (c :: (splitChar sep rest).headD []) :: (splitChar sep rest).tail := rfl

theorem splitChar_ne_nil (sep : Char) (cs : List Char) : splitChar sep cs ≠ [] := by
  cases cs with
  | nil => simp [splitChar_nil]
  | cons c rest => rw [splitChar_cons]; by_cases hc : c = sep <;> simp [hc]

theorem splitChar_of_no_sep {sep : Char} {a : List Char}
    (h : a.all (fun c => !(c == sep)) = true) : splitChar sep a = [a] := by
  induction a with
  | nil => rfl
  | cons x xs ih =>
    simp only [List.all_cons, Bool.and_eq_true, Bool.not_eq_true', beq_eq_false_iff_ne,
      ne_eq] at h
    rw [splitChar_cons, if_neg h.1, ih (by simpa using h.2)]
    rfl

theorem splitChar_append {sep : Char} {a b : List Char}
    (ha : a.all (fun c => !(c == sep)) = true)
    (hb : b.all (fun c => !(c == sep)) = true) :
    splitChar sep (a ++ sep :: b) = [a, b] := by
  induction a with
  | nil =>
    rw [List.nil_append, splitChar_cons, if_pos rfl, splitChar_of_no_sep hb]
  | cons x xs ih =>
    simp only [List.all_cons, Bool.and_eq_true, Bool.not_eq_true', beq_eq_false_iff_ne,
      ne_eq] at ha
    rw [List.cons_append, splitChar_cons, if_neg ha.1, ih (by simpa using ha.2)]
    rfl

theorem splitChar_join (sep : Char) (cs : List Char) :
    joinSep sep (splitChar sep cs) = cs := by
  induction cs with
  | nil => rfl
  | cons c rest ih =>
    rw [splitChar_cons]
    by_cases hc : c = sep
    · rw [if_pos hc]
      cases h : splitChar sep rest with
      | nil => exact absurd h (splitChar_ne_nil sep rest)
      | cons g gs =>
        rw [h] at ih
        simpa [joinSep, hc] using ih
    · rw [if_neg hc]
      cases h : splitChar sep rest with
      | nil => exact absurd h (splitChar_ne_nil sep rest)
      | cons g gs =>
        rw [h] at ih
        cases gs with
        | nil => simpa [joinSep] using ih
        | cons g₂ gs₂ => simpa [joinSep] using ih

theorem splitChar_groups_no_sep (sep : Char) (cs : List Char) :
    ∀ g ∈ splitChar sep cs, g.all (fun c => !(c == sep)) = true := by
  induction cs with
  | nil => intro g hg; rw [splitChar_nil] at hg; simp at hg; simp [hg]
  | cons c rest ih =>
    intro g hg
    rw [splitChar_cons] at hg
    by_cases hc : c = sep
    · rw [if_pos hc] at hg
      rcases List.mem_cons.mp hg with rfl | hg
      · rfl
      · exact ih g hg
    · rw [if_neg hc] at hg
      cases h : splitChar sep rest with
      | nil => exact absurd h (splitChar_ne_nil sep rest)
      | cons g₁ gs =>
        rw [h] at hg
        rcases List.mem_cons.mp hg with rfl | hg
        · have h₁ := ih g₁ (by rw [h]; exact List.mem_cons_self g₁ gs)
          simp [List.all_cons, hc, h₁]
        · exact ih g (by rw [h]; exact List.mem_cons_of_mem g₁ hg)

theorem all_digits_no_dash {ds : List Char} (h : ds.all Char.isDigit = true) :
    ds.all (fun c => !(c == '-')) = true := by
  rw [List.all_eq_true] at h ⊢
  intro c hc
  have hd := h c hc
  simp only [Bool.not_eq_true', beq_eq_false_iff_ne, ne_eq]
  intro heq
  rw [heq] at hd
  exact absurd hd (by decide)

theorem isMadeAttemptedShape_exists {cs : List Char}
    (h : isMadeAttemptedShape cs = true) :
    ∃ ds₁ ds₂ : List Char, cs = ds₁ ++ '-' :: ds₂ ∧ ds₁ ≠ [] ∧ ds₂ ≠ [] ∧
      ds₁.all Char.isDigit = true ∧ ds₂.all Char.isDigit = true := by
  unfold isMadeAttemptedShape at h
  cases hs : splitChar '-' cs with
  | nil => exact absurd hs (splitChar_ne_nil _ _)
  | cons a rest =>
    rw [hs] at h
    cases rest with
    | nil => simp at h
    | cons b rest₂ =>
      cases rest₂ with
      | cons g₃ gs₃ => simp at h
      | nil =>
        have hp := of_decide_eq_true h
        obtain ⟨ha, hb, hda, hdb⟩ := hp
        refine ⟨a, b, ?_, ha, hb, hda, hdb⟩
        have hj := splitChar_join '-' cs
        rw [hs] at hj
        simpa [joinSep] using hj.symm

theorem isMadeAttemptedShape_of_decomp {ds₁ ds₂ : List Char}
    (h₁ : ds₁ ≠ []) (h₂ : ds₂ ≠ [])
    (hd₁ : ds₁.all Char.isDigit = true) (hd₂ : ds₂.all Char.isDigit = true) :
    isMadeAttemptedShape (ds₁ ++ '-' :: ds₂) = true ∧
      splitChar '-' (ds₁ ++ '-' :: ds₂) = [ds₁, ds₂] := by
  have hsp := splitChar_append (all_digits_no_dash hd₁) (all_digits_no_dash hd₂)
  refine ⟨?_, hsp⟩
  unfold isMadeAttemptedShape
  rw [hsp]
  exact decide_eq_true ⟨h₁, h₂, hd₁, hd₂⟩

/-! ## C1 — StatValueParser (spec 4.1) -/

/-- **C1 counterexample**: the cell `"12.5%"` ends with `%` and its
remainder `"12.5"` is not a valid integer, so the claim's percent rule
("if not a valid integer → Absent") demands `Absent`; the code instead
applies `parseInt`, which prefix-parses `"12.5"` to `12`, and returns
`Count 12`. -/
theorem C1_counterexample :
    parseStatValue "12.5%" = StatValue.count 12 ∧
    jsEndsWith '%' (cleanCsvValue "12.5%") = true ∧
    specPercentRule (cleanCsvValue "12.5%") = StatValue.absent ∧
    parseStatValue "12.5%" ≠ specPercentRule (cleanCsvValue "12.5%") := by
  decide

/-- **C1** (amended): `parseStatValue` is total and follows the ordered
first-match algorithm of spec 4.1, with the percent step amended to the
code's behaviour: the `%` branch removes the first occurrence of `%` and
applies integer prefix parsing (JS `parseInt`), yielding `Count` of the
parsed integer, or `Absent` only when there is no leading integer.  The
other steps are as claimed: after quote-stripping and trimming, empty or
`"-"` yields `Absent`; `^\d+-\d+$` yields `MadeAttempted` of the two parts;
otherwise a string parsing as a number yields `Count`, anything else
`RawText`.  Includes the claim's concrete test vectors. -/
theorem C1_parseStatValue_amended :
    (∀ cell : String,
      ((cleanCsvValue cell = "" ∨ cleanCsvValue cell = "-") →
          parseStatValue cell = StatValue.absent) ∧
      (∀ ds₁ ds₂ : List Char,
          (cleanCsvValue cell).toList = ds₁ ++ '-' :: ds₂ →
          ds₁ ≠ [] → ds₂ ≠ [] →
          ds₁.all Char.isDigit = true → ds₂.all Char.isDigit = true →
          ¬(cleanCsvValue cell = "" ∨ cleanCsvValue cell = "-") →
          parseStatValue cell =
            StatValue.madeAttempted (digitsToNat ds₁ : ℕ) (digitsToNat ds₂ : ℕ)) ∧
      (¬(cleanCsvValue cell = "" ∨ cleanCsvValue cell = "-") →
       ¬(∃ ds₁ ds₂ : List Char, (cleanCsvValue cell).toList = ds₁ ++ '-' :: ds₂ ∧
            ds₁ ≠ [] ∧ ds₂ ≠ [] ∧ ds₁.all Char.isDigit = true ∧
            ds₂.all Char.isDigit = true) →
       jsEndsWith '%' (cleanCsvValue cell) = true →
       parseStatValue cell =
         (match jsParseInt? (String.mk (removeFirstChar '%' (cleanCsvValue cell).toList)) with
          | none => StatValue.absent
          | some n => StatValue.count n)) ∧
      (¬(cleanCsvValue cell = "" ∨ cleanCsvValue cell = "-") →
       ¬(∃ ds₁ ds₂ : List Char, (cleanCsvValue cell).toList = ds₁ ++ '-' :: ds₂ ∧
            ds₁ ≠ [] ∧ ds₂ ≠ [] ∧ ds₁.all Char.isDigit = true ∧
            ds₂.all Char.isDigit = true) →
       jsEndsWith '%' (cleanCsvValue cell) = false →
       parseStatValue cell =
         (match jsNumber? (cleanCsvValue cell) with
          | some q => StatValue.count q
          | none => StatValue.rawText (cleanCsvValue cell)))) ∧
    parseStatValue "9-19" = StatValue.madeAttempted 9 19 ∧
    parseStatValue "47%" = StatValue.count 47 ∧
    parseStatValue "-" = StatValue.absent ∧
    parseStatValue "" = StatValue.absent ∧
    parseStatValue "10" = StatValue.count 10 ∧
    parseStatValue "abc" = StatValue.rawText "abc" := by
  refine ⟨fun cell => ⟨?_, ?_, ?_, ?_⟩, by decide, by decide, by decide, by decide,
    by decide, by decide⟩
  · intro h
    unfold parseStatValue
    rw [if_pos h.symm]
  · intro ds₁ ds₂ hdec h₁ h₂ hd₁ hd₂ hne
    obtain ⟨hshape, hsplit⟩ := isMadeAttemptedShape_of_decomp h₁ h₂ hd₁ hd₂
    unfold parseStatValue
    rw [if_neg (fun hx => hne hx.symm), hdec, if_pos hshape, hsplit]
    rfl
  · intro hne hnshape hpct
    have hsf : isMadeAttemptedShape (cleanCsvValue cell).toList = false := by
      cases hx : isMadeAttemptedShape (cleanCsvValue cell).toList with
      | false => rfl
      | true => exact absurd (isMadeAttemptedShape_exists hx) hnshape
    unfold parseStatValue
    rw [if_neg (fun hx => hne hx.symm), if_neg (by simpa [String.toList] using hsf),
      if_pos hpct]
  · intro hne hnshape hpct
    have hsf : isMadeAttemptedShape (cleanCsvValue cell).toList = false := by
      cases hx : isMadeAttemptedShape (cleanCsvValue cell).toList with
      | false => rfl
      | true => exact absurd (isMadeAttemptedShape_exists hx) hnshape
    unfold parseStatValue
    rw [if_neg (fun hx => hne hx.symm), if_neg (by simpa [String.toList] using hsf),
      if_neg (by simp [hpct])]

/-- **C1 witness**: the amended made-attempted rule instantiated at the
cell `"9-19"`, whose cleaned text decomposes as digits-dash-digits. -/
theorem C1_witness :
    parseStatValue "9-19" =
      StatValue.madeAttempted (digitsToNat ['9'] : ℕ) (digitsToNat ['1', '9'] : ℕ) :=
  (C1_parseStatValue_amended.1 "9-19").2.1 ['9'] ['1', '9'] (by decide) (by decide)
    (by decide) (by decide) (by decide) (by decide)

/-! ## C7 — Assist/Turnover ratio (spec 4.5) -/

/-- **C7**: `computeAstToRatio` takes assists = the `asst` value (0 if
absent or non-numeric) and turnovers = the `to` value (same default);
it returns `Absent` when both are 0, `round2(assists)` when turnovers = 0
and assists > 0, and `round2(assists/turnovers)` when turnovers ≠ 0;
with the claim's three concrete examples. -/
theorem C7_computeAstToRatio :
    (∀ stats : PRecord,
      (numOr0 (getStat stats "asst") = 0 ∧ numOr0 (getStat stats "to") = 0 →
        computeAstToRatio stats = StatValue.absent) ∧
      (numOr0 (getStat stats "to") = 0 → 0 < numOr0 (getStat stats "asst") →
        computeAstToRatio stats =
          StatValue.count (round2 (numOr0 (getStat stats "asst")))) ∧
      (numOr0 (getStat stats "to") ≠ 0 →
        computeAstToRatio stats =
          StatValue.count
            (round2 (numOr0 (getStat stats "asst") / numOr0 (getStat stats "to"))))) ∧
    computeAstToRatio [("asst", StatValue.count 0), ("to", StatValue.count 0)] =
      StatValue.absent ∧
    computeAstToRatio [("asst", StatValue.count 3), ("to", StatValue.count 0)] =
      StatValue.count 3 ∧
    computeAstToRatio [("asst", StatValue.count 4), ("to", StatValue.count 2)] =
      StatValue.count 2 := by
  refine ⟨fun stats => ⟨?_, ?_, ?_⟩, ?_, ?_, ?_⟩
  · intro h
    unfold computeAstToRatio
    rw [if_pos h]
  · intro ht ha
    unfold computeAstToRatio
    rw [if_neg (fun hx => absurd hx.1 (ne_of_gt ha)), if_pos ht]
  · intro ht
    unfold computeAstToRatio
    rw [if_neg (fun hx => ht hx.2), if_neg ht]
  · norm_num +decide [computeAstToRatio, getStat, numOr0, List.find?]
  · norm_num +decide [computeAstToRatio, getStat, numOr0, List.find?, round2, jsRound]
  · norm_num +decide [computeAstToRatio, getStat, numOr0, List.find?, round2, jsRound]

/-- **C7 witness**: the general rules of `C7_computeAstToRatio` instantiated
at the record `{asst: 3, to: 0}`. -/
theorem C7_witness :
    computeAstToRatio [("asst", StatValue.count 3), ("to", StatValue.count 0)] =
      StatValue.count (round2 (numOr0 (getStat
        [("asst", StatValue.count 3), ("to", StatValue.count 0)] "asst"))) :=
  (C7_computeAstToRatio.1 [("asst", StatValue.count 3), ("to", StatValue.count 0)]).2.1
    (by decide) (by decide)

/-! ## C3 — PerformanceClassifier (spec 4.7) -/

/-- **C3**: for every benchmark entry and numeric value,
`getPerformanceLevel` classifies by the ordered threshold cascade: on a
normal scale excellent iff `value ≥ p90`, else good iff `≥ p75`, else
average iff `≥ p50`, else below iff `≥ p25`, else poor; on an inverted
scale the same with `≤`; a missing benchmark entry defaults to `average`;
a made-attempted value is classified by its `made` component; and on the
inverted `to` table, 1 classifies excellent and 5 poor. -/
theorem C3_getPerformanceLevel :
    (∀ (key : String) (b : BenchmarkStat) (v : ℚ),
      lookupBenchmark key = some b →
      (b.invertedScale = false →
        ((getPerformanceLevel key (StatValue.count v) = .excellent ↔ b.p90 ≤ v) ∧
         (getPerformanceLevel key (StatValue.count v) = .good ↔
            ¬b.p90 ≤ v ∧ b.p75 ≤ v) ∧
         (getPerformanceLevel key (StatValue.count v) = .average ↔
            ¬b.p90 ≤ v ∧ ¬b.p75 ≤ v ∧ b.p50 ≤ v) ∧
         (getPerformanceLevel key (StatValue.count v) = .below ↔
            ¬b.p90 ≤ v ∧ ¬b.p75 ≤ v ∧ ¬b.p50 ≤ v ∧ b.p25 ≤ v) ∧
         (getPerformanceLevel key (StatValue.count v) = .poor ↔
            ¬b.p90 ≤ v ∧ ¬b.p75 ≤ v ∧ ¬b.p50 ≤ v ∧ ¬b.p25 ≤ v))) ∧
      (b.invertedScale = true →
        ((getPerformanceLevel key (StatValue.count v) = .excellent ↔ v ≤ b.p90) ∧
         (getPerformanceLevel key (StatValue.count v) = .good ↔
            ¬v ≤ b.p90 ∧ v ≤ b.p75) ∧
         (getPerformanceLevel key (StatValue.count v) = .average ↔
            ¬v ≤ b.p90 ∧ ¬v ≤ b.p75 ∧ v ≤ b.p50) ∧
         (getPerformanceLevel key (StatValue.count v) = .below ↔
            ¬v ≤ b.p90 ∧ ¬v ≤ b.p75 ∧ ¬v ≤ b.p50 ∧ v ≤ b.p25) ∧
         (getPerformanceLevel key (StatValue.count v) = .poor ↔
            ¬v ≤ b.p90 ∧ ¬v ≤ b.p75 ∧ ¬v ≤ b.p50 ∧ ¬v ≤ b.p25)))) ∧
    (∀ (key : String) (v : StatValue),
      lookupBenchmark key = none → getPerformanceLevel key v = .average) ∧
    (∀ (key : String) (m a : ℚ),
      getPerformanceLevel key (StatValue.madeAttempted m a) =
        getPerformanceLevel key (StatValue.count m)) ∧
    lookupBenchmark "to" = some ⟨4, 3, 2, 1, true⟩ ∧
    getPerformanceLevel "to" (StatValue.count 1) = .excellent ∧
    getPerformanceLevel "to" (StatValue.count 5) = .poor := by
  refine ⟨fun key b v hlook => ?_, fun key v hlook => ?_, fun key m a => ?_,
    by decide, by decide, by decide⟩
  · have hcv : getPerformanceLevel key (StatValue.count v) = classifyValue b v := by
      unfold getPerformanceLevel
      rw [hlook]
      rfl
    constructor
    · intro hinv
      refine ⟨?_, ?_, ?_, ?_, ?_⟩ <;>
        rw [hcv] <;> simp only [classifyValue, hinv] <;> split_ifs <;> simp_all
    · intro hinv
      refine ⟨?_, ?_, ?_, ?_, ?_⟩ <;>
        rw [hcv] <;> simp only [classifyValue, hinv] <;> split_ifs <;> simp_all
  · unfold getPerformanceLevel
    rw [hlook]
  · unfold getPerformanceLevel
    cases hlook : lookupBenchmark key <;> rfl

/-- **C3 witness**: the classification rules instantiated on the inverted
`to` benchmark at value 3, and the missing-entry default at an unknown
key. -/
theorem C3_witness :
    (getPerformanceLevel "to" (StatValue.count 3) = .average ↔
      ¬(3 : ℚ) ≤ 1 ∧ ¬(3 : ℚ) ≤ 2 ∧ (3 : ℚ) ≤ 3) ∧
    getPerformanceLevel "unknownstat" (StatValue.count 5) = .average :=
  ⟨((C3_getPerformanceLevel.1 "to" ⟨4, 3, 2, 1, true⟩ 3 (by decide)).2 rfl).2.2.1,
   C3_getPerformanceLevel.2.1 "unknownstat" (StatValue.count 5) (by decide)⟩

/-! ## C4 — GameRowValidator (spec 4.3) -/

theorem statGtZero_reachable {v : StatValue} (h : parserReachable v) :
    statGtZero v = true ↔ ∃ q, v = StatValue.count q ∧ 0 < q := by
  cases v with
  | count q => simp [statGtZero]
  | rawText s =>
      have hn : jsNumber? s = none := h
      simp [statGtZero, hn]
  | absent => simp [statGtZero]
  | madeAttempted m a => simp [statGtZero]

/-- **C4**: for every parsed record, the played predicate holds iff (with
case-insensitive key matching) `min` or `pts` is present with numeric value
> 0, or `fg` is a made-attempted with attempted > 0, or one of the counting
stats is numeric > 0, or the plus-minus key is numeric and nonzero; with
the claim's two concrete examples. -/
theorem C4_hasValidStats :
    (∀ stats : PRecord, (∀ p ∈ stats, parserReachable p.2) →
      (hasValidStats stats = true ↔
        ∃ p ∈ stats,
          (jsToLower p.1 = "min" ∧ ∃ q, p.2 = StatValue.count q ∧ 0 < q) ∨
          (jsToLower p.1 = "pts" ∧ ∃ q, p.2 = StatValue.count q ∧ 0 < q) ∨
          (jsToLower p.1 = "fg" ∧ ∃ m a, p.2 = StatValue.madeAttempted m a ∧ 0 < a) ∨
          (jsToLower p.1 ∈ otherStatKeys ∧ ∃ q, p.2 = StatValue.count q ∧ 0 < q) ∨
          (jsToLower p.1 = "+/-" ∧ ∃ q, p.2 = StatValue.count q ∧ q ≠ 0))) ∧
    hasValidStats [("min", StatValue.count 0), ("pts", StatValue.count 0)] = false ∧
    hasValidStats [("asst", StatValue.count 1)] = true := by
  refine ⟨fun stats hreach => ?_, by decide, by decide⟩
  simp only [hasValidStats]
  rw [Bool.or_eq_true, Bool.or_eq_true, Bool.or_eq_true]
  constructor
  · intro hcode
    rcases hcode with ((h | h) | h) | h
    · rw [List.any_eq_true] at h
      obtain ⟨p, hp, hc⟩ := h
      rw [Bool.and_eq_true, Bool.and_eq_true] at hc
      exact ⟨p, hp, Or.inl ⟨by simpa using hc.1.2,
        (statGtZero_reachable (hreach p hp)).mp hc.2⟩⟩
    · rw [List.any_eq_true] at h
      obtain ⟨p, hp, hc⟩ := h
      rw [Bool.and_eq_true, Bool.and_eq_true] at hc
      exact ⟨p, hp, Or.inr (Or.inl ⟨by simpa using hc.1.2,
        (statGtZero_reachable (hreach p hp)).mp hc.2⟩)⟩
    · rw [List.any_eq_true] at h
      obtain ⟨⟨k, v⟩, hp, hc⟩ := h
      rw [Bool.and_eq_true, Bool.and_eq_true] at hc
      have hk : jsToLower k = "fg" := by simpa using hc.1.2
      have hc2 := hc.2
      cases v with
      | madeAttempted m a =>
          exact ⟨(k, .madeAttempted m a), hp,
            Or.inr (Or.inr (Or.inl ⟨hk, m, a, rfl, by simpa using hc2⟩))⟩
      | absent => simp at hc2
      | count q => simp at hc2
      | rawText s => simp at hc2
    · rw [List.any_eq_true] at h
      obtain ⟨⟨k, v⟩, hp, hc⟩ := h
      rw [Bool.and_eq_true, Bool.or_eq_true] at hc
      rcases hc.2 with hc2 | hc2
      · rw [Bool.and_eq_true] at hc2
        have hk : jsToLower k ∈ otherStatKeys := List.elem_iff.mp hc2.1
        have hv := hc2.2
        cases v with
        | count q =>
            exact ⟨(k, .count q), hp,
              Or.inr (Or.inr (Or.inr (Or.inl ⟨hk, q, rfl, by simpa using hv⟩)))⟩
        | absent => simp at hv
        | madeAttempted m a => simp at hv
        | rawText s => simp at hv
      · rw [Bool.and_eq_true] at hc2
        have hk : jsToLower k = "+/-" := by simpa using hc2.1
        have hv := hc2.2
        cases v with
        | count q =>
            exact ⟨(k, .count q), hp,
              Or.inr (Or.inr (Or.inr (Or.inr ⟨hk, q, rfl, by simpa using hv⟩)))⟩
        | absent => simp at hv
        | madeAttempted m a => simp at hv
        | rawText s => simp at hv
  · rintro ⟨p, hp, hmin | hpts | hfg | hoth | hpm⟩
    · obtain ⟨hk, q, hv, hq⟩ := hmin
      refine Or.inl (Or.inl (Or.inl (List.any_eq_true.mpr ⟨p, hp, ?_⟩)))
      simp [hv, hk, statGtZero, hq]
    · obtain ⟨hk, q, hv, hq⟩ := hpts
      refine Or.inl (Or.inl (Or.inr (List.any_eq_true.mpr ⟨p, hp, ?_⟩)))
      simp [hv, hk, statGtZero, hq]
    · obtain ⟨hk, m, a, hv, ha⟩ := hfg
      refine Or.inl (Or.inr (List.any_eq_true.mpr ⟨p, hp, ?_⟩))
      simp [hv, hk, ha]
    · obtain ⟨hk, q, hv, hq⟩ := hoth
      refine Or.inr (List.any_eq_true.mpr ⟨p, hp, ?_⟩)
      simp [hv, hq]
      exact Or.inl hk
    · obtain ⟨hk, q, hv, hq⟩ := hpm
      refine Or.inr (List.any_eq_true.mpr ⟨p, hp, ?_⟩)
      simp [hv, hk, hq]

/-- **C4 witness**: the characterization applied to the parsed record
`{asst: Count 1}`, whose played status is witnessed by the `asst` entry. -/
theorem C4_witness :
    hasValidStats [("asst", StatValue.count 1)] = true ↔
      ∃ p ∈ [("asst", StatValue.count 1)],
        (jsToLower p.1 = "min" ∧ ∃ q, p.2 = StatValue.count q ∧ 0 < q) ∨
        (jsToLower p.1 = "pts" ∧ ∃ q, p.2 = StatValue.count q ∧ 0 < q) ∨
        (jsToLower p.1 = "fg" ∧ ∃ m a, p.2 = StatValue.madeAttempted m a ∧ 0 < a) ∨
        (jsToLower p.1 ∈ otherStatKeys ∧ ∃ q, p.2 = StatValue.count q ∧ 0 < q) ∨
        (jsToLower p.1 = "+/-" ∧ ∃ q, p.2 = StatValue.count q ∧ q ≠ 0) :=
  C4_hasValidStats.1 [("asst", StatValue.count 1)]
    (by intro p hp; simp only [List.mem_singleton] at hp; subst hp; exact trivial)

/-! ## C2 — WindowedTrendAnalyzer (spec 4.6) -/

theorem specLastN_eq_drop (w : ℕ) (l : List ℚ) :
    specLastN w l = l.drop (l.length - w) := by
  unfold specLastN
  rw [List.take_reverse, List.reverse_reverse]

theorem jsCurrentWindow_eq_specLastN {w : ℕ} (hw : 0 < w) (l : List ℚ) :
    jsCurrentWindow w l = specLastN w l := by
  unfold jsCurrentWindow
  rw [if_neg (Nat.pos_iff_ne_zero.mp hw), specLastN_eq_drop]

theorem jsPrevWindow_eq_specLastN (w : ℕ) (l : List ℚ) :
    jsPrevWindow w l = specLastN w (l.take (l.length - w)) := by
  unfold jsPrevWindow
  rw [specLastN_eq_drop, List.length_take]
  congr 1
  omega

theorem le_foldl_max (a : ℚ) (l : List ℚ) :
    a ≤ l.foldl max a ∧ ∀ x ∈ l, x ≤ l.foldl max a := by
  induction l generalizing a with
  | nil => exact ⟨le_refl a, by simp⟩
  | cons y ys ih =>
    refine ⟨le_trans (le_max_left a y) (ih (max a y)).1, fun x hx => ?_⟩
    rcases List.mem_cons.mp hx with rfl | hx
    · exact le_trans (le_max_right a x) (ih (max a x)).1
    · exact (ih (max a y)).2 x hx

theorem foldl_max_mem (a : ℚ) (l : List ℚ) :
    l.foldl max a = a ∨ l.foldl max a ∈ l := by
  induction l generalizing a with
  | nil => exact Or.inl rfl
  | cons y ys ih =>
    rw [List.foldl_cons]
    rcases ih (max a y) with h | h
    · rcases max_choice a y with hm | hm
      · exact Or.inl (by rw [h, hm])
      · exact Or.inr (by rw [h, hm]; exact List.mem_cons_self y ys)
    · exact Or.inr (List.mem_cons_of_mem y h)

theorem foldl_min_le (a : ℚ) (l : List ℚ) :
    l.foldl min a ≤ a ∧ ∀ x ∈ l, l.foldl min a ≤ x := by
  induction l generalizing a with
  | nil => exact ⟨le_refl a, by simp⟩
  | cons y ys ih =>
    refine ⟨le_trans (ih (min a y)).1 (min_le_left a y), fun x hx => ?_⟩
    rcases List.mem_cons.mp hx with rfl | hx
    · exact le_trans (ih (min a x)).1 (min_le_right a x)
    · exact (ih (min a y)).2 x hx

theorem foldl_min_mem (a : ℚ) (l : List ℚ) :
    l.foldl min a = a ∨ l.foldl min a ∈ l := by
  induction l generalizing a with
  | nil => exact Or.inl rfl
  | cons y ys ih =>
    rw [List.foldl_cons]
    rcases ih (min a y) with h | h
    · rcases min_choice a y with hm | hm
      · exact Or.inl (by rw [h, hm])
      · exact Or.inr (by rw [h, hm]; exact List.mem_cons_self y ys)
    · exact Or.inr (List.mem_cons_of_mem y h)

theorem listMax_mem {l : List ℚ} (h : l ≠ []) : listMax l ∈ l := by
  cases l with
  | nil => exact absurd rfl h
  | cons x xs =>
    rcases foldl_max_mem x xs with hx | hx
    · rw [listMax, hx]; exact List.mem_cons_self x xs
    · exact List.mem_cons_of_mem x hx

theorem le_listMax {l : List ℚ} : ∀ x ∈ l, x ≤ listMax l := by
  intro x hx
  cases l with
  | nil => simp at hx
  | cons y ys =>
    rcases List.mem_cons.mp hx with rfl | hx
    · exact (le_foldl_max x ys).1
    · exact (le_foldl_max y ys).2 x hx

theorem listMin_mem {l : List ℚ} (h : l ≠ []) : listMin l ∈ l := by
  cases l with
  | nil => exact absurd rfl h
  | cons x xs =>
    rcases foldl_min_mem x xs with hx | hx
    · rw [listMin, hx]; exact List.mem_cons_self x xs
    · exact List.mem_cons_of_mem x hx

theorem listMin_le {l : List ℚ} : ∀ x ∈ l, listMin l ≤ x := by
  intro x hx
  cases l with
  | nil => simp at hx
  | cons y ys =>
    rcases List.mem_cons.mp hx with rfl | hx
    · exact (foldl_min_le x ys).1
    · exact (foldl_min_le y ys).2 x hx

/-- **C2**: `calculateWindowedStats` extracts the valid-value series and,
for every nonempty series and `windowSize > 0`, takes the current window as
the last `windowSize` values and the previous window as the `windowSize`
values immediately before them; it returns the current window's arithmetic
mean, median (standard even/odd rule on a sorted permutation), max and min;
`hasPrevWindow` is true exactly when the previous window has at least 3
elements, in which case the three trends are the claimed differences, and
otherwise all three trends are 0.  For `[10,12,8,15,20]` with windowSize 3
the result is mean 43/3, median 15, max 20, min 8, `hasPrevWindow = false`,
all trends 0. -/
theorem C2_calculateWindowedStats :
    (∀ (records : List PRecord) (stat : String) (w : ℕ),
        calculateWindowedStats records stat w =
          windowedStatsCore (validValues records stat) w) ∧
    (∀ (values : List ℚ) (w : ℕ), 0 < w → values ≠ [] →
      ∃ ws, windowedStatsCore values w = some ws ∧
        ws.average = (specLastN w values).sum / (specLastN w values).length ∧
        (∃ s, s.Perm (specLastN w values) ∧ s.Sorted (· ≤ ·) ∧
           ws.median = evenOddMedianRule s) ∧
        ws.max ∈ specLastN w values ∧ (∀ x ∈ specLastN w values, x ≤ ws.max) ∧
        ws.min ∈ specLastN w values ∧ (∀ x ∈ specLastN w values, ws.min ≤ x) ∧
        (ws.hasPrevWindow = true ↔
           3 ≤ (specLastN w (values.take (values.length - w))).length) ∧
        (3 ≤ (specLastN w (values.take (values.length - w))).length →
           ws.avgTrend = ws.average -
             (specLastN w (values.take (values.length - w))).sum /
               (specLastN w (values.take (values.length - w))).length ∧
           (∃ t, t.Perm (specLastN w (values.take (values.length - w))) ∧
              t.Sorted (· ≤ ·) ∧
              ws.medianTrend = ws.median - evenOddMedianRule t) ∧
           (∃ pmax pmin,
             pmax ∈ specLastN w (values.take (values.length - w)) ∧
             (∀ x ∈ specLastN w (values.take (values.length - w)), x ≤ pmax) ∧
             pmin ∈ specLastN w (values.take (values.length - w)) ∧
             (∀ x ∈ specLastN w (values.take (values.length - w)), pmin ≤ x) ∧
             ws.varianceTrend = (ws.max - ws.min) - (pmax - pmin))) ∧
        ((specLastN w (values.take (values.length - w))).length < 3 →
           ws.hasPrevWindow = false ∧ ws.avgTrend = 0 ∧ ws.medianTrend = 0 ∧
             ws.varianceTrend = 0)) ∧
    windowedStatsCore [10, 12, 8, 15, 20] 3 =
      some ⟨3, 5, 43/3, 0, 15, 0, 20, 8, 0, false⟩ := by
  refine ⟨fun records stat w => rfl, fun values w hw hne => ?_, ?_⟩
  · have hcur := jsCurrentWindow_eq_specLastN hw values
    have hprev := jsPrevWindow_eq_specLastN w values
    have hcne : specLastN w values ≠ [] := by
      rw [specLastN_eq_drop]
      have hlen : 0 < values.length := List.length_pos.mpr hne
      intro hx
      rw [List.drop_eq_nil_iff] at hx
      omega
    simp only [windowedStatsCore, hcur, hprev]
    rw [if_neg (by simpa using hne), if_neg (by simpa using hcne)]
    refine ⟨_, rfl, rfl, ⟨_, List.perm_insertionSort _ _, List.sorted_insertionSort _ _, rfl⟩,
      listMax_mem hcne, le_listMax, listMin_mem hcne, listMin_le, by simp, ?_, ?_⟩
    · intro h3
      simp only [if_pos h3]
      exact ⟨rfl, ⟨_, List.perm_insertionSort _ _, List.sorted_insertionSort _ _, rfl⟩,
        listMax (specLastN w (values.take (values.length - w))),
        listMin (specLastN w (values.take (values.length - w))),
        listMax_mem (by intro hx; rw [hx] at h3; simp at h3),
        le_listMax,
        listMin_mem (by intro hx; rw [hx] at h3; simp at h3),
        listMin_le, rfl⟩
    · intro h3
      have hn : ¬3 ≤ (specLastN w (values.take (values.length - w))).length := by omega
      simp only [if_neg hn]
      exact ⟨by simp [decide_eq_false_iff_not]; omega, trivial, trivial, trivial⟩
  · norm_num +decide [windowedStatsCore, jsCurrentWindow, jsPrevWindow, listMean,
      medianOf, evenOddMedianRule, List.insertionSort, List.orderedInsert,
      listMax, listMin]

/-- **C2 witness**: the windowing rules instantiated on the series
`[10,12,8,15,20]` with window size 3. -/
theorem C2_witness :
    ∃ ws, windowedStatsCore [10, 12, 8, 15, 20] 3 = some ws ∧
      (ws.hasPrevWindow = true ↔
        3 ≤ (specLastN 3 ([10, 12, 8, 15, 20].take
              ([10, 12, 8, 15, 20].length - 3))).length) := by
  obtain ⟨ws, h1, h⟩ :=
    C2_calculateWindowedStats.2.1 [10, 12, 8, 15, 20] 3 (by norm_num) (by simp)
  exact ⟨ws, h1, h.2.2.2.2.2.2.1⟩

/-! ## C10 — idempotence of derived-stat computation (spec 4.5) -/

theorem find?_jsSet_self {α : Type} (key : String) (v : α) (l : List (String × α)) :
    (jsSet key v l).find? (fun p => p.1 = key) = some (key, v) := by
  induction l with
  | nil => simp [jsSet, List.find?]
  | cons p rest ih =>
    obtain ⟨k, w⟩ := p
    by_cases hk : k = key
    · subst hk
      simp [jsSet, List.find?]
    · simp [jsSet, List.find?, hk, ih]

theorem find?_jsSet_ne {α : Type} {key k' : String} (h : k' ≠ key) (v : α)
    (l : List (String × α)) :
    (jsSet key v l).find? (fun p => p.1 = k') = l.find? (fun p => p.1 = k') := by
  induction l with
  | nil => simp [jsSet, List.find?, Ne.symm h]
  | cons p rest ih =>
    obtain ⟨k, w⟩ := p
    by_cases hk : k = key
    · subst hk
      have hkk : ¬k = k' := fun hx => h hx.symm
      simp [jsSet, List.find?, hkk]
    · by_cases hkk : k = k'
      · subst hkk
        simp [jsSet, List.find?, hk]
      · simp [jsSet, List.find?, hk, hkk, ih]

theorem jsSet_of_found {α : Type} {key : String} {v : α} :
    ∀ {l : List (String × α)}, l.find? (fun p => p.1 = key) = some (key, v) →
      jsSet key v l = l := by
  intro l
  induction l with
  | nil => intro h; simp [List.find?] at h
  | cons p rest ih =>
    obtain ⟨k, w⟩ := p
    intro h
    by_cases hk : k = key
    · subst hk
      simp [List.find?] at h
      simp [jsSet, h]
    · simp only [List.find?] at h
      rw [decide_eq_false_iff_not.mpr hk] at h
      simp [jsSet, hk, ih h]

theorem getStat_addComputedStats_raw (l : PRecord) (k : String)
    (h1 : k ≠ "a/to") (h2 : k ≠ "atk") (h3 : k ≠ "def") (h4 : k ≠ "shoot") :
    getStat (addComputedStats l) k = getStat l k := by
  unfold addComputedStats getStat
  rw [find?_jsSet_ne h4, find?_jsSet_ne h3, find?_jsSet_ne h2, find?_jsSet_ne h1]

theorem computeAstToRatio_idem (l : PRecord) :
    computeAstToRatio (addComputedStats l) = computeAstToRatio l := by
  unfold computeAstToRatio
  rw [getStat_addComputedStats_raw l "asst" (by decide) (by decide) (by decide) (by decide),
    getStat_addComputedStats_raw l "to" (by decide) (by decide) (by decide) (by decide)]

theorem computeAttackEnergy_idem (l : PRecord) :
    computeAttackEnergy (addComputedStats l) = computeAttackEnergy l := by
  unfold computeAttackEnergy
  rw [getStat_addComputedStats_raw l "min" (by decide) (by decide) (by decide) (by decide),
    getStat_addComputedStats_raw l "fg" (by decide) (by decide) (by decide) (by decide),
    getStat_addComputedStats_raw l "ft" (by decide) (by decide) (by decide) (by decide),
    getStat_addComputedStats_raw l "asst" (by decide) (by decide) (by decide) (by decide),
    getStat_addComputedStats_raw l "oreb" (by decide) (by decide) (by decide) (by decide)]

theorem computeDefenceDomination_idem (l : PRecord) :
    computeDefenceDomination (addComputedStats l) = computeDefenceDomination l := by
  unfold computeDefenceDomination
  rw [getStat_addComputedStats_raw l "min" (by decide) (by decide) (by decide) (by decide),
    getStat_addComputedStats_raw l "blk" (by decide) (by decide) (by decide) (by decide),
    getStat_addComputedStats_raw l "stl" (by decide) (by decide) (by decide) (by decide),
    getStat_addComputedStats_raw l "dreb" (by decide) (by decide) (by decide) (by decide),
    getStat_addComputedStats_raw l "foul" (by decide) (by decide) (by decide) (by decide)]

theorem computeShootingStar_idem (l : PRecord) :
    computeShootingStar (addComputedStats l) = computeShootingStar l := by
  unfold computeShootingStar
  simp only [List.map_cons, List.map_nil]
  rw [getStat_addComputedStats_raw l "fg%" (by decide) (by decide) (by decide) (by decide),
    getStat_addComputedStats_raw l "3pt%" (by decide) (by decide) (by decide) (by decide),
    getStat_addComputedStats_raw l "ft%" (by decide) (by decide) (by decide) (by decide)]

theorem find?_addComputedStats_ato (l : PRecord) :
    (addComputedStats l).find? (fun p => p.1 = "a/to") =
      some ("a/to", computeAstToRatio l) := by
  unfold addComputedStats
  rw [find?_jsSet_ne (by decide), find?_jsSet_ne (by decide), find?_jsSet_ne (by decide),
    find?_jsSet_self]

theorem find?_addComputedStats_atk (l : PRecord) :
    (addComputedStats l).find? (fun p => p.1 = "atk") =
      some ("atk", computeAttackEnergy l) := by
  unfold addComputedStats
  rw [find?_jsSet_ne (by decide), find?_jsSet_ne (by decide), find?_jsSet_self]

theorem find?_addComputedStats_def (l : PRecord) :
    (addComputedStats l).find? (fun p => p.1 = "def") =
      some ("def", computeDefenceDomination l) := by
  unfold addComputedStats
  rw [find?_jsSet_ne (by decide), find?_jsSet_self]

theorem find?_addComputedStats_shoot (l : PRecord) :
    (addComputedStats l).find? (fun p => p.1 = "shoot") =
      some ("shoot", computeShootingStar l) := by
  unfold addComputedStats
  rw [find?_jsSet_self]

/-- **C10**: derived-stat computation is idempotent — applying
`addComputedStats` twice yields exactly the same record as applying it
once: the four computed keys only depend on raw keys that the merge never
touches, so recomputation reproduces identical values. -/
theorem C10_addComputedStats_idempotent :
    ∀ stats : PRecord, addComputedStats (addComputedStats stats) = addComputedStats stats := by
  intro l
  conv_lhs => rw [addComputedStats]
  rw [computeAstToRatio_idem, computeAttackEnergy_idem, computeDefenceDomination_idem,
    computeShootingStar_idem]
  rw [jsSet_of_found (find?_addComputedStats_ato l),
    jsSet_of_found (find?_addComputedStats_atk l),
    jsSet_of_found (find?_addComputedStats_def l),
    jsSet_of_found (find?_addComputedStats_shoot l)]

/-! ## C9 — recommendation priority (spec 4.8) -/

/-- **C9**: the single textual recommendation of `generateRecommendation`
is chosen by first-match over the fixed priority list: cold shooting streak
(on `fg%` or `3pt%`), then turnover decline or weakness, then
assist/turnover-ratio decline, then free-throw-percentage weakness, then
defensive-rebound weakness, then (at least 2 improving and 0 declining),
then (at least 2 hot streaks), then (a strength and a weakness), otherwise
none. -/
theorem C9_generateRecommendation :
    ∀ analysis : Analysis,
      generateRecommendation analysis = firstMatch
        [ (decide (∃ c ∈ analysis.coldStreaks, c.stat = "fg%" ∨ c.stat = "3pt%"),
            "Shooting is cold. Focus on high-percentage shots closer to the basket."),
          (decide ((∃ d ∈ analysis.declining, d.stat = "to") ∨
              (∃ w ∈ analysis.weaknesses, w.stat = "to")),
            "Work on ball security. Look for safer passing lanes and avoid forcing plays."),
          (decide (∃ d ∈ analysis.declining, d.stat = "a/to"),
            "Assist-to-turnover ratio declining. Focus on smart decision-making with the ball."),
          (decide (∃ w ∈ analysis.weaknesses, w.stat = "ft%"),
            "Free throw practice can add easy points. Aim for 10+ FTs daily."),
          (decide (∃ w ∈ analysis.weaknesses, w.stat = "dreb"),
            "Box out on defensive rebounds. Position yourself between opponent and basket."),
          (decide (2 ≤ analysis.improving.length ∧ analysis.declining.length = 0),
            "Great progress! Maintain this momentum and keep pushing."),
          (decide (2 ≤ analysis.hotStreaks.length),
            "Playing with confidence! Stay aggressive and trust your game."),
          (decide (0 < analysis.strengths.length ∧ 0 < analysis.weaknesses.length),
            "Build on your " ++
              getStatDisplayName ((analysis.strengths.headD ⟨""⟩).stat) ++
              " strength while developing weaker areas.") ] := by
  intro analysis
  simp only [generateRecommendation, firstMatch, List.any_eq_true, Bool.or_eq_true,
    decide_eq_true_eq]

/-! ## C8 — InsightEngine per-stat trend (spec 4.8) -/

/-- **C8 counterexample**: four games of `pts` with values `0,10,10,10` and
window size 3.  The previous window is `[0]`, shorter than 3 elements, so
the claim's spec-4.6 rule treats the previous-window mean as absent and the
trend as 0, classifying the direction `consistent`; the code instead takes
the mean of the single-element previous window, gets a trend of 10 > 0.2,
and reports `improving`. -/
theorem C8_counterexample :
    (statTrendAnalysis
        [[("pts", StatValue.count 0)], [("pts", StatValue.count 10)],
         [("pts", StatValue.count 10)], [("pts", StatValue.count 10)]]
        "pts" 3).map StatTrend.trendDirection = some TrendDir.improving ∧
    jsPrevWindow 3 (validValues
        [[("pts", StatValue.count 0)], [("pts", StatValue.count 10)],
         [("pts", StatValue.count 10)], [("pts", StatValue.count 10)]] "pts") = [0] ∧
    specTrendDirection
        [[("pts", StatValue.count 0)], [("pts", StatValue.count 10)],
         [("pts", StatValue.count 10)], [("pts", StatValue.count 10)]]
        "pts" 3 = TrendDir.consistent := by
  refine ⟨?_, by decide, ?_⟩
  · norm_num +decide [statTrendAnalysis, validValues, jsCurrentWindow, jsPrevWindow,
      listMean, getStat, getNumericStat, hasValidStatValue, List.find?, isInvertedStat,
      lookupBenchmark, referenceStatsTable, getPerformanceLevel]
  · norm_num +decide [specTrendDirection, validValues, specLastN, listMean, getStat,
      getNumericStat, hasValidStatValue, List.find?, isInvertedStat, lookupBenchmark,
      referenceStatsTable]

/-- **C8** (amended): in `analyzePlayerPerformance`, for every stat with at
least 2 valid values and a positive window size, the current-window mean is
the mean of the last `windowSize` valid values; the previous-window mean is
the mean of the up-to-`windowSize` values immediately before them whenever
at least one such value exists, and the season mean of all valid values
otherwise (not the ≥3-element rule of spec 4.6); the current-window mean is
classified via spec 4.7; and the trend direction uses the ±0.2 thresholds,
with the comparison sign flipped for inverted stats.  With fewer than 2
valid values no per-stat analysis is produced. -/
theorem C8_statTrendAnalysis_amended :
    ∀ (records : List PRecord) (stat : String) (w : ℕ), 0 < w →
      ((records.filter (fun r => hasValidStatValue (getStat r stat))).length < 2 →
        statTrendAnalysis records stat w = none) ∧
      (2 ≤ (records.filter (fun r => hasValidStatValue (getStat r stat))).length →
        ∃ st, statTrendAnalysis records stat w = some st ∧
          st.recentAvg =
            (specLastN w (validValues records stat)).sum /
              (specLastN w (validValues records stat)).length ∧
          st.prevAvg =
            (if specLastN w ((validValues records stat).take
                  ((validValues records stat).length - w)) ≠ [] then
              (specLastN w ((validValues records stat).take
                  ((validValues records stat).length - w))).sum /
                (specLastN w ((validValues records stat).take
                  ((validValues records stat).length - w))).length
            else (validValues records stat).sum / (validValues records stat).length) ∧
          st.trendValue = st.recentAvg - st.prevAvg ∧
          st.perfLevel = getPerformanceLevel stat (StatValue.count st.recentAvg) ∧
          (isInvertedStat stat = false →
            st.trendDirection =
              (if 1/5 < st.trendValue then TrendDir.improving
               else if st.trendValue < -(1/5) then TrendDir.declining
               else TrendDir.consistent)) ∧
          (isInvertedStat stat = true →
            st.trendDirection =
              (if st.trendValue < -(1/5) then TrendDir.improving
               else if 1/5 < st.trendValue then TrendDir.declining
               else TrendDir.consistent))) := by
  intro records stat w hw
  constructor
  · intro hlt
    unfold statTrendAnalysis
    rw [if_pos hlt]
  · intro hge
    have hnlt : ¬(records.filter (fun r => hasValidStatValue (getStat r stat))).length < 2 :=
      by omega
    have hvlen : validValues records stat =
        (records.filter (fun r => hasValidStatValue (getStat r stat))).map
          (fun r => getNumericStat (getStat r stat)) := rfl
    have hvne : validValues records stat ≠ [] := by
      rw [hvlen]
      intro hx
      rw [List.map_eq_nil_iff] at hx
      rw [hx] at hge
      simp at hge
    have hcur := jsCurrentWindow_eq_specLastN hw (validValues records stat)
    have hprev := jsPrevWindow_eq_specLastN w (validValues records stat)
    have hcne : specLastN w (validValues records stat) ≠ [] := by
      rw [specLastN_eq_drop]
      have hlen : 0 < (validValues records stat).length := List.length_pos.mpr hvne
      intro hx
      rw [List.drop_eq_nil_iff] at hx
      omega
    simp only [statTrendAnalysis]
    rw [if_neg hnlt]
    rw [← hvlen, hcur, hprev]
    rw [if_neg (by simpa using hcne)]
    refine ⟨_, rfl, rfl, ?_, rfl, rfl, ?_, ?_⟩
    · by_cases hp : specLastN w ((validValues records stat).take
          ((validValues records stat).length - w)) = []
      · rw [if_neg (show ¬0 < (specLastN w ((validValues records stat).take
            ((validValues records stat).length - w))).length by simp [hp]),
          if_neg (show ¬(specLastN w ((validValues records stat).take
            ((validValues records stat).length - w)) ≠ []) from fun hx => hx hp)]
        rfl
      · rw [if_pos (show 0 < (specLastN w ((validValues records stat).take
            ((validValues records stat).length - w))).length by
              simpa [List.length_pos] using hp),
          if_pos hp]
        rfl
    · intro hinv
      rw [hinv]
      simp only [Bool.false_eq_true, if_false]
    · intro hinv
      rw [hinv]
      simp only [if_true]

/-- **C8 witness**: the amended per-stat rules instantiated on the
counterexample records, projecting the previous-window-mean clause. -/
theorem C8_witness :
    ∃ st, statTrendAnalysis
        [[("pts", StatValue.count 0)], [("pts", StatValue.count 10)],
         [("pts", StatValue.count 10)], [("pts", StatValue.count 10)]]
        "pts" 3 = some st ∧
      st.perfLevel = getPerformanceLevel "pts" (StatValue.count st.recentAvg) := by
  obtain ⟨st, h1, -, -, -, h5, -, -⟩ :=
    (C8_statTrendAnalysis_amended
      [[("pts", StatValue.count 0)], [("pts", StatValue.count 10)],
       [("pts", StatValue.count 10)], [("pts", StatValue.count 10)]]
      "pts" 3 (by decide)).2 (by decide)
  exact ⟨st, h1, h5⟩

/-! ## C6 — MalformedInput error (spec 4.4 and 7) -/

/-- **C6**: `parseCsvLines` fails if and only if no cleaned header
case-insensitively equals `"player"`; the error message is exactly the
source's message carrying the comma-joined list of discovered headers; and
in every other case ingestion succeeds (`Except.ok`), so the missing-player
error is the only failure and a failure produces no partial output. -/
theorem C6_parseCsv_error :
    ∀ (headerLine : String) (rows : List String),
      ((∃ e, parseCsvLines headerLine rows = Except.error e) ↔
        ∀ h ∈ (jsSplit ',' headerLine).map cleanCsvValue, jsToLower h ≠ "player") ∧
      (∀ e, parseCsvLines headerLine rows = Except.error e →
        e = "CSV must include a 'player' column. Found: " ++
          joinCommaSpace ((jsSplit ',' headerLine).map cleanCsvValue)) ∧
      ((∃ h ∈ (jsSplit ',' headerLine).map cleanCsvValue, jsToLower h = "player") →
        ∃ g, parseCsvLines headerLine rows = Except.ok g) := by
  intro headerLine rows
  cases hfind : ((jsSplit ',' headerLine).map cleanCsvValue).findIdx?
      (fun h => jsToLower h = "player") with
  | none =>
    have hall := List.findIdx?_eq_none_iff.mp hfind
    have herr : parseCsvLines headerLine rows =
        Except.error ("CSV must include a 'player' column. Found: " ++
          joinCommaSpace ((jsSplit ',' headerLine).map cleanCsvValue)) := by
      simp only [parseCsvLines]
      rw [hfind]
    refine ⟨⟨fun _ h hmem => by simpa using hall h hmem, fun _ => ⟨_, herr⟩⟩,
      fun e he => ?_, fun hex => ?_⟩
    · rw [herr] at he
      injection he with h1
      exact h1.symm
    · obtain ⟨h, hmem, hp⟩ := hex
      have := hall h hmem
      simp [hp] at this
  | some i =>
    have hok : ∃ g, parseCsvLines headerLine rows = Except.ok g := by
      simp only [parseCsvLines]
      rw [hfind]
      exact ⟨_, rfl⟩
    obtain ⟨g, hg⟩ := hok
    have hp := List.findIdx?_of_eq_some hfind
    refine ⟨⟨fun hex => ?_, fun hnone => ?_⟩, fun e he => ?_, fun _ => ⟨g, hg⟩⟩
    · obtain ⟨e, he⟩ := hex
      rw [hg] at he
      exact absurd he (by simp)
    · exfalso
      cases hget : ((jsSplit ',' headerLine).map cleanCsvValue)[i]? with
      | none => rw [hget] at hp; simp at hp
      | some h =>
        rw [hget] at hp
        have hmem := List.getElem?_mem hget
        exact hnone h hmem (by simpa using hp)
    · rw [hg] at he
      exact absurd he (by simp)

/-- **C6 witness**: a header without a player column errors, and a header
with one ingests successfully. -/
theorem C6_witness :
    (∃ e, parseCsvLines "a,b" ["x"] = Except.error e) ∧
    (∃ g, parseCsvLines "player,min" ["#1 A,5"] = Except.ok g) :=
  ⟨(C6_parseCsv_error "a,b" ["x"]).1.mpr (by decide),
   (C6_parseCsv_error "player,min" ["#1 A,5"]).2.2 ⟨"player", by decide, by decide⟩⟩

/-! ## C5 — CsvIngester row filtering (spec 4.4) -/

theorem mem_keys_jsSet {α : Type} (key name : String) (v : α) (l : List (String × α)) :
    name ∈ (jsSet key v l).map Prod.fst ↔ name = key ∨ name ∈ l.map Prod.fst := by
  induction l with
  | nil => simp [jsSet]
  | cons p rest ih =>
    obtain ⟨k, w⟩ := p
    by_cases hk : k = key
    · subst hk
      simp [jsSet]
    · simp only [jsSet, if_neg hk, List.map_cons, List.mem_cons, ih]
      tauto

theorem parseCsvStep_foldl_keys (headers statHeaders : List String) (playerIndex : ℕ) :
    ∀ (cols : List (List String))
      (acc : List (String × PlayerRegEntry) × List (String × PRecord)) (name : String),
      (name ∈ (cols.foldl (parseCsvStep headers statHeaders playerIndex) acc).2.map Prod.fst ↔
        name ∈ acc.2.map Prod.fst ∨ ∃ columns ∈ cols,
          hasValidStats (buildRowStats headers statHeaders columns) = true ∧
          (extractPlayerInfo (columns.getD playerIndex "")).name = name) ∧
      (name ∈ (cols.foldl (parseCsvStep headers statHeaders playerIndex) acc).1.map Prod.fst ↔
        name ∈ acc.1.map Prod.fst ∨ ∃ columns ∈ cols,
          hasValidStats (buildRowStats headers statHeaders columns) = true ∧
          (extractPlayerInfo (columns.getD playerIndex "")).name = name) := by
  intro cols
  induction cols with
  | nil => intro acc name; simp
  | cons c cs ih =>
    intro acc name
    rw [List.foldl_cons]
    simp only [List.mem_cons, exists_eq_or_imp]
    by_cases hv : hasValidStats (buildRowStats headers statHeaders c) = true
    · constructor
      · rw [(ih _ name).1]
        simp only [parseCsvStep, hv, if_true, mem_keys_jsSet, true_and]
        constructor
        · rintro ((h | h) | h)
          · exact Or.inr (Or.inl h.symm)
          · exact Or.inl h
          · exact Or.inr (Or.inr h)
        · rintro (h | h | h)
          · exact Or.inl (Or.inr h)
          · exact Or.inl (Or.inl h.symm)
          · exact Or.inr h
      · rw [(ih _ name).2]
        simp only [parseCsvStep, hv, if_true, mem_keys_jsSet, true_and]
        constructor
        · rintro ((h | h) | h)
          · exact Or.inr (Or.inl h.symm)
          · exact Or.inl h
          · exact Or.inr (Or.inr h)
        · rintro (h | h | h)
          · exact Or.inl (Or.inr h)
          · exact Or.inl (Or.inl h.symm)
          · exact Or.inr h
    · constructor
      · rw [(ih _ name).1]
        simp only [parseCsvStep, hv, Bool.false_eq_true, if_false, false_and, false_or]
      · rw [(ih _ name).2]
        simp only [parseCsvStep, hv, Bool.false_eq_true, if_false, false_and, false_or]

/-- **C5**: when a player column exists, ingestion succeeds, and a player
name appears in the returned `performances` map (and equally in the
`playersFound` registry) exactly when some data row (i) splits into as many
cells as the header, (ii) has a player cell starting with `#`, and
(iii) parses to a record passing the played predicate and extracting that
name.  Includes the claim's end-to-end Alex/Sam example, where only Alex
survives. -/
theorem C5_parseCsv_row_filtering :
    (∀ (headerLine : String) (rows : List String) (playerIndex : ℕ),
      ((jsSplit ',' headerLine).map cleanCsvValue).findIdx?
          (fun h => jsToLower h = "player") = some playerIndex →
      ∃ g, parseCsvLines headerLine rows = Except.ok g ∧
        ∀ name : String,
          (name ∈ g.performances.map Prod.fst ↔
            ∃ row ∈ rows,
              ((jsSplit ',' row).map cleanCsvValue).length =
                ((jsSplit ',' headerLine).map cleanCsvValue).length ∧
              jsStartsWith '#'
                (((jsSplit ',' row).map cleanCsvValue).getD playerIndex "") = true ∧
              hasValidStats (buildRowStats ((jsSplit ',' headerLine).map cleanCsvValue)
                g.statHeaders ((jsSplit ',' row).map cleanCsvValue)) = true ∧
              (extractPlayerInfo
                (((jsSplit ',' row).map cleanCsvValue).getD playerIndex "")).name =
                  name) ∧
          (name ∈ g.playersFound.map Prod.fst ↔
            ∃ row ∈ rows,
              ((jsSplit ',' row).map cleanCsvValue).length =
                ((jsSplit ',' headerLine).map cleanCsvValue).length ∧
              jsStartsWith '#'
                (((jsSplit ',' row).map cleanCsvValue).getD playerIndex "") = true ∧
              hasValidStats (buildRowStats ((jsSplit ',' headerLine).map cleanCsvValue)
                g.statHeaders ((jsSplit ',' row).map cleanCsvValue)) = true ∧
              (extractPlayerInfo
                (((jsSplit ',' row).map cleanCsvValue).getD playerIndex "")).name =
                  name)) ∧
    parseCsvLines "player,min,pts,asst,to" ["#5 Alex,20,10,4,1", "#7 Sam,0,0,0,0"] =
      Except.ok ⟨["min", "pts", "asst", "to"],
        [("Alex", [("min", StatValue.count 20), ("pts", StatValue.count 10),
          ("asst", StatValue.count 4), ("to", StatValue.count 1)])],
        [("Alex", ⟨some 5, true⟩)]⟩ := by
  refine ⟨fun headerLine rows playerIndex hfind => ?_, by rfl⟩
  simp only [parseCsvLines]
  rw [hfind]
  refine ⟨_, rfl, fun name => ?_⟩
  constructor
  · rw [(parseCsvStep_foldl_keys _ _ _ _ _ name).1]
    simp only [List.map_nil, List.not_mem_nil, false_or, List.mem_filter,
      List.mem_map]
    constructor
    · rintro ⟨columns, ⟨⟨⟨row, hrow, rfl⟩, hlen⟩, hhash⟩, hvalid, hname⟩
      exact ⟨row, hrow, by simpa using hlen, hhash, hvalid, hname⟩
    · rintro ⟨row, hrow, hlen, hhash, hvalid, hname⟩
      exact ⟨(jsSplit ',' row).map cleanCsvValue,
        ⟨⟨⟨row, hrow, rfl⟩, by simpa using hlen⟩, hhash⟩, hvalid, hname⟩
  · rw [(parseCsvStep_foldl_keys _ _ _ _ _ name).2]
    simp only [List.map_nil, List.not_mem_nil, false_or, List.mem_filter,
      List.mem_map]
    constructor
    · rintro ⟨columns, ⟨⟨⟨row, hrow, rfl⟩, hlen⟩, hhash⟩, hvalid, hname⟩
      exact ⟨row, hrow, by simpa using hlen, hhash, hvalid, hname⟩
    · rintro ⟨row, hrow, hlen, hhash, hvalid, hname⟩
      exact ⟨(jsSplit ',' row).map cleanCsvValue,
        ⟨⟨⟨row, hrow, rfl⟩, by simpa using hlen⟩, hhash⟩, hvalid, hname⟩

/-- **C5 witness**: the row-filtering characterization applied to the
Alex/Sam CSV, instantiated at the name `"Alex"`. -/
theorem C5_witness :
    ∃ g, parseCsvLines "player,min,pts,asst,to"
        ["#5 Alex,20,10,4,1", "#7 Sam,0,0,0,0"] = Except.ok g ∧
      ("Alex" ∈ g.performances.map Prod.fst ↔
        ∃ row ∈ ["#5 Alex,20,10,4,1", "#7 Sam,0,0,0,0"],
          ((jsSplit ',' row).map cleanCsvValue).length =
            ((jsSplit ',' "player,min,pts,asst,to").map cleanCsvValue).length ∧
          jsStartsWith '#' (((jsSplit ',' row).map cleanCsvValue).getD 0 "") = true ∧
          hasValidStats (buildRowStats
            ((jsSplit ',' "player,min,pts,asst,to").map cleanCsvValue)
            g.statHeaders ((jsSplit ',' row).map cleanCsvValue)) = true ∧
          (extractPlayerInfo
            (((jsSplit ',' row).map cleanCsvValue).getD 0 "")).name = "Alex") := by
  obtain ⟨g, hok, hchar⟩ :=
    C5_parseCsv_row_filtering.1 "player,min,pts,asst,to"
      ["#5 Alex,20,10,4,1", "#7 Sam,0,0,0,0"] 0 (by decide)
  exact ⟨g, hok, (hchar "Alex").1⟩

end BasketStat
